import Mathlib

/-!
# Verification of the slka conversation-resolution and engagement-tracking core

Shallow embedding of the core logic of the `internal/slack` package:

* `dms.go` — identity resolution (`ResolveUser`, `ResolveUsers`) and the
  conversation matcher (`FindExistingConversation`);
* `users.go` — `Lookup` and `UserService.ResolveUser`;
* `reactions.go` — `CheckAcknowledgment`;
* `unread.go` — `ListUnread`.

The remote client (`Client` interface, mocked in tests) is modelled as a
record of response-valued fields: each method the embedded code calls
becomes a field holding the response the call would return.  Fallible Go
calls returning `(T, error)` become `Except String T` (or `Option T` when
the caller only branches on success).  Go slices become `List`, Go `int`
counters become `Nat`, and Go's in-place `sort` becomes
`List.insertionSort` (the embedded properties depend only on sortedness
and multiset content, which every correct sort satisfies).

Go's string primitives are embedded as executable functions on the
character list of the string (`String.toList`): `strLe` is Go's
lexicographic string order (code-point order, which agrees with Go's
byte-wise order since UTF-8 is order-preserving), `splitComma` is
`strings.Split(s, ",")`, `trimString` is `strings.TrimSpace`,
`startsWithU` is `strings.HasPrefix(s, "U")` and `containsAt` is
`strings.Contains(s, "@")`.
-/

deriving instance DecidableEq for Except

namespace Slka

/-! ## Go string primitives -/

/-- The comparison key of a string: its code points. -/
def strKey (s : String) : List Nat := s.toList.map Char.toNat

/-- Strict lexicographic order on code-point lists (Go's `<` on strings). -/
def natListLtB : List Nat → List Nat → Bool
  | [], [] => false
  | [], _ :: _ => true
  | _ :: _, [] => false
  | a :: as, b :: bs => if a < b then true else if b < a then false else natListLtB as bs

/-- Go's `<` on strings. -/
def strLtB (a b : String) : Bool := natListLtB (strKey a) (strKey b)

/-- The non-strict companion of `strLtB`; `sort.Strings` sorts into
`strLe`-ascending order. -/
def strLe (a b : String) : Prop := (!strLtB b a) = true

instance : DecidableRel strLe := fun _ _ => inferInstanceAs (Decidable (_ = true))

theorem natListLtB_irrefl : ∀ xs : List Nat, natListLtB xs xs = false
  | [] => rfl
  | _ :: xs => by simp [natListLtB, natListLtB_irrefl xs]

theorem natListLtB_trans : ∀ xs ys zs : List Nat,
    natListLtB xs ys = true → natListLtB ys zs = true → natListLtB xs zs = true
  | [], [], _ :: _, _, _ => rfl
  | [], _ :: _, _ :: _, _, _ => rfl
  | x :: xs, y :: ys, z :: zs, hxy, hyz => by
    simp only [natListLtB] at hxy hyz ⊢
    by_cases h1 : x < y
    · by_cases h2 : y < z
      · simp [Nat.lt_trans h1 h2]
      · by_cases h3 : z < y
        · simp [natListLtB, h2, h3] at hyz
        · have : y = z := Nat.le_antisymm (Nat.le_of_not_lt h3) (Nat.le_of_not_lt h2)
          subst this
          simp [h1]
    · by_cases h1' : y < x
      · simp [h1, h1'] at hxy
      · have hxe : x = y := Nat.le_antisymm (Nat.le_of_not_lt h1') (Nat.le_of_not_lt h1)
        subst hxe
        simp only [if_neg h1, if_neg h1'] at hxy
        by_cases h2 : x < z
        · simp [h2]
        · by_cases h3 : z < x
          · simp [h2, h3] at hyz
          · have : x = z := Nat.le_antisymm (Nat.le_of_not_lt h3) (Nat.le_of_not_lt h2)
            subst this
            simp only [if_neg h2, if_neg h3] at hyz ⊢
            exact natListLtB_trans xs ys zs hxy hyz

theorem natListLtB_connex : ∀ xs ys : List Nat,
    natListLtB xs ys = false → natListLtB ys xs = false → xs = ys
  | [], [], _, _ => rfl
  | [], _ :: _, h, _ => by simp [natListLtB] at h
  | _ :: _, [], _, h => by simp [natListLtB] at h
  | x :: xs, y :: ys, hxy, hyx => by
    simp only [natListLtB] at hxy hyx
    by_cases h1 : x < y
    · simp [h1] at hxy
    · by_cases h2 : y < x
      · simp [h1, h2] at hyx
      · have hxe : x = y := Nat.le_antisymm (Nat.le_of_not_lt h2) (Nat.le_of_not_lt h1)
        subst hxe
        simp only [if_neg h1, if_neg h2] at hxy hyx
        rw [natListLtB_connex xs ys hxy hyx]

theorem natListLtB_asymm {xs ys : List Nat} (h : natListLtB xs ys = true) :
    natListLtB ys xs = false := by
  by_contra hc
  have h2 : natListLtB ys xs = true := by
    cases hx : natListLtB ys xs
    · exact absurd hx hc
    · rfl
  have := natListLtB_trans xs ys xs h h2
  rw [natListLtB_irrefl] at this
  exact Bool.false_ne_true this

theorem charToNat_injective : Function.Injective Char.toNat :=
  fun _ _ h => Char.ext (UInt32.ext h)

theorem strKey_inj {a b : String} (h : strKey a = strKey b) : a = b :=
  String.toList_inj.mp (List.map_injective_iff.mpr charToNat_injective h)

theorem strLtB_asymm {a b : String} (h : strLtB a b = true) : strLtB b a = false :=
  natListLtB_asymm h

instance : IsTotal String strLe :=
  ⟨fun a b => by
    unfold strLe
    cases hx : strLtB b a
    · left; rfl
    · right
      rw [strLtB_asymm hx]
      rfl⟩

instance : IsTrans String strLe :=
  ⟨fun a b c hab hbc => by
    unfold strLe strLtB at *
    rw [Bool.not_eq_eq_eq_not, Bool.not_true] at hab hbc ⊢
    by_contra hc
    have hca : natListLtB (strKey c) (strKey a) = true := by
      cases hx : natListLtB (strKey c) (strKey a)
      · exact absurd hx hc
      · rfl
    by_cases hbc2 : natListLtB (strKey b) (strKey c) = true
    · by_cases hab2 : natListLtB (strKey a) (strKey b) = true
      · have hac := natListLtB_trans _ _ _ hab2 hbc2
        have := natListLtB_trans _ _ _ hca hac
        rw [natListLtB_irrefl] at this
        exact Bool.false_ne_true this
      · have hab3 : natListLtB (strKey a) (strKey b) = false := by
          cases hx : natListLtB (strKey a) (strKey b)
          · rfl
          · exact absurd hx hab2
        have : strKey a = strKey b := natListLtB_connex _ _ hab3 hab
        rw [← this] at hbc
        rw [hbc] at hca
        exact Bool.false_ne_true hca
    · have hbc3 : natListLtB (strKey b) (strKey c) = false := by
        cases hx : natListLtB (strKey b) (strKey c)
        · rfl
        · exact absurd hx hbc2
      have : strKey b = strKey c := natListLtB_connex _ _ hbc3 hbc
      rw [this] at hab
      rw [hab] at hca
      exact Bool.false_ne_true hca⟩

instance : IsAntisymm String strLe :=
  ⟨fun a b hab hba => by
    unfold strLe strLtB at hab hba
    rw [Bool.not_eq_eq_eq_not, Bool.not_true] at hab hba
    exact strKey_inj (natListLtB_connex _ _ hba hab)⟩

/-- `strings.Split(s, ",")` on the character list. -/
def splitOnChar (sep : Char) : List Char → List (List Char)
  | [] => [[]]
  | c :: rest =>
    if c = sep then [] :: splitOnChar sep rest
    else
      match splitOnChar sep rest with
      | [] => [[c]]
      | hd :: tl => (c :: hd) :: tl

/-- `strings.Split(s, ",")`. -/
def splitComma (s : String) : List String :=
  (splitOnChar ',' s.toList).map List.asString

/-- `strings.TrimSpace`. -/
def trimString (s : String) : String :=
  (((s.toList.dropWhile Char.isWhitespace).reverse.dropWhile Char.isWhitespace).reverse).asString

/-- `strings.HasPrefix(s, "U")`. -/
def startsWithU (s : String) : Bool :=
  match s.toList with
  | c :: _ => c == 'U'
  | [] => false

/-- `strings.Contains(s, "@")`. -/
def containsAt (s : String) : Bool := s.toList.contains '@'

/-! ## Data model -/

/-- A workspace user as returned by the directory (`slack.User`): `ID`,
`Name` (username) and `RealName` (display name). -/
structure User where
  id : String := ""
  name : String := ""
  realName : String := ""
  deriving DecidableEq, Repr

/-- A conversation record (`slack.Channel`): the fields read by
`FindExistingConversation` and `ListUnread`. -/
structure Channel where
  id : String := ""
  name : String := ""
  isChannel : Bool := false
  isPrivate : Bool := false
  isIM : Bool := false
  isMpIM : Bool := false
  user : String := ""
  members : List String := []
  unreadCount : Nat := 0
  unreadCountDisplay : Nat := 0
  lastRead : String := ""
  deriving DecidableEq, Repr

/-! ## Conversation matcher (`dms.go`, `FindExistingConversation`) -/

/-- `sort.Strings`: sort a list of strings lexicographically. -/
def sortStrings (l : List String) : List String :=
  l.insertionSort strLe

/-- The participant list extracted from a conversation record
(`FindExistingConversation`, the `convUsers` assignment): `[channel.User]`
for an IM, `channel.Members` for a non-empty MpIM, `[]` otherwise. -/
def convUsersOf (ch : Channel) : List String :=
  if ch.isIM then [ch.user]
  else if ch.isMpIM ∧ ch.members.length > 0 then ch.members
  else []

/-- The matching loop of `FindExistingConversation`: return the ID of the
first conversation whose participant list has the target length and whose
sorted participant list equals the (already sorted) target, `""` if none. -/
def findMatch (sortedUserIDs : List String) : List Channel → String
  | [] => ""
  | ch :: rest =>
    let convUsers := convUsersOf ch
    if convUsers.length = sortedUserIDs.length ∧ sortStrings convUsers = sortedUserIDs
    then ch.id
    else findMatch sortedUserIDs rest

/-- `FindExistingConversation`: sort the input user IDs, fetch all
conversations of the kind determined by the input length (`"mpim"` for more
than one ID, `"im"` otherwise), and scan for the first participant-list
match.  `fetch` models `client.GetConversations` keyed by the requested
conversation type. -/
def findExistingConversation (fetch : String → Except String (List Channel))
    (userIDs : List String) : Except String String :=
  let sortedUserIDs := sortStrings userIDs
  let convType := if userIDs.length > 1 then "mpim" else "im"
  match fetch convType with
  | .error e => .error ("failed to list conversations: " ++ e)
  | .ok channels => .ok (findMatch sortedUserIDs channels)

theorem sortStrings_eq_of_perm {A B : List String} (h : A.Perm B) :
    sortStrings A = sortStrings B :=
  List.eq_of_perm_of_sorted
    (((List.perm_insertionSort _ A).trans h).trans (List.perm_insertionSort _ B).symm)
    (List.sorted_insertionSort _ A) (List.sorted_insertionSort _ B)

/-- **C1.** `FindExistingConversation` is invariant under reordering of its
participant-ID list: for any two inputs that are permutations of one
another it returns the same result (the same conversation ID, or `""` for
"no match" in both). -/
theorem findExistingConversation_perm_invariant
    (fetch : String → Except String (List Channel)) (A B : List String)
    (h : A.Perm B) :
    findExistingConversation fetch A = findExistingConversation fetch B := by
  unfold findExistingConversation
  rw [h.length_eq, sortStrings_eq_of_perm h]

/-- Witness for C1 at a concrete input: `["U1", "U2"]` and `["U2", "U1"]`
are permutations of each other and resolve to the same conversation. -/
theorem findExistingConversation_perm_invariant_witness :
    (["U1", "U2"] : List String).Perm ["U2", "U1"] ∧
      findExistingConversation
          (fun t => if t = "mpim" then .ok [{ id := "G9", isMpIM := true, members := ["U2", "U1"] }] else .ok [])
          ["U1", "U2"]
        = findExistingConversation
          (fun t => if t = "mpim" then .ok [{ id := "G9", isMpIM := true, members := ["U2", "U1"] }] else .ok [])
          ["U2", "U1"] :=
  ⟨by decide,
   findExistingConversation_perm_invariant _ ["U1", "U2"] ["U2", "U1"] (by decide)⟩

theorem sortStrings_length (l : List String) : (sortStrings l).length = l.length :=
  (List.perm_insertionSort _ l).length_eq

/-- The length guard in the matching loop is subsumed by sorted-list
equality, so the loop returns the first conversation whose sorted
participant list equals the sorted target. -/
theorem findMatch_eq_find (target : List String) (chans : List Channel) :
    findMatch target chans
      = ((chans.find? (fun ch => sortStrings (convUsersOf ch) == target)).elim "" Channel.id) := by
  induction chans with
  | nil => rfl
  | cons ch rest ih =>
    rw [List.find?_cons]
    by_cases hp : sortStrings (convUsersOf ch) = target
    · have hlen : (convUsersOf ch).length = target.length := by
        rw [← hp, sortStrings_length]
      simp [findMatch, hp, hlen]
    · have : (sortStrings (convUsersOf ch) == target) = false := by
        simpa using hp
      simp only [this, cond_false]
      simp [findMatch, hp, ih]

/-- The mpim conversation used in the C5 counterexample: its participant
set is `{U1, U2}`. -/
def fetchC5 : String → Except String (List Channel) :=
  fun t => if t = "mpim" then .ok [{ id := "G1", isMpIM := true, members := ["U1", "U2"] }] else .ok []

/-- **C5, counterexample.** The comparison performed by
`FindExistingConversation` is multiset equality of sorted lists, not set
equality: the input `["U1", "U1", "U2"]` has element set `{U1, U2}`, equal
to the participant set of conversation `G1`, yet the lookup reports no
match (`""`), while the duplicate-free input `["U1", "U2"]` with the same
element set returns `G1`. -/
theorem findExistingConversation_set_equality_cex :
    findExistingConversation fetchC5 ["U1", "U1", "U2"] = .ok "" ∧
    findExistingConversation fetchC5 ["U1", "U2"] = .ok "G1" ∧
    (["U1", "U1", "U2"].all (fun x => (["U1", "U2"] : List String).contains x) ∧
     ["U1", "U2"].all (fun x => (["U1", "U1", "U2"] : List String).contains x)) :=
  ⟨by decide, by decide, by decide⟩

/-- **C5, amended.** `FindExistingConversation`'s matching depends only on
the *multiset* of the input participant IDs (their sorted list): it returns
exactly the first fetched conversation whose sorted participant list equals
the sorted input list, and `""` when none matches.  For duplicate-free
inputs and duplicate-free member lists this is set equality, but an input
in which the same user ID appears more than once only matches a
conversation with the same duplicate multiplicities. -/
theorem findExistingConversation_multiset_match
    (fetch : String → Except String (List Channel)) (A : List String)
    (chans : List Channel)
    (h : fetch (if A.length > 1 then "mpim" else "im") = .ok chans) :
    findExistingConversation fetch A
      = .ok ((chans.find? (fun ch => sortStrings (convUsersOf ch) == sortStrings A)).elim "" Channel.id) := by
  simp only [findExistingConversation]
  rw [h]
  show Except.ok (findMatch (sortStrings A) chans) = _
  rw [findMatch_eq_find]

/-- Witness for the amended C5 theorem at a concrete input. -/
theorem findExistingConversation_multiset_match_witness :
    findExistingConversation fetchC5 ["U2", "U1"] = .ok "G1" := by
  have h := findExistingConversation_multiset_match fetchC5 ["U2", "U1"]
    [{ id := "G1", isMpIM := true, members := ["U1", "U2"] }] (by decide)
  rw [h]; decide

/-! ## Identity resolver (`dms.go` `ResolveUser`/`ResolveUsers`,
`users.go` `Lookup`/`UserService.ResolveUser`) -/

/-- The directory calls made by the resolvers: `GetUserByEmail` and
`GetUsers` of the client interface. -/
structure DMClient where
  getUserByEmail : String → Except String User
  getUsers : Except String (List User)

/-- `DMService.ResolveUser` (`dms.go`): an ID-shaped token (prefix `"U"`)
is returned unchanged; otherwise a lookup-by-email is attempted (twice when
the token contains `"@"`, mirroring the guarded first attempt and the
unconditional second attempt of the source); on email failure the full
directory is fetched and scanned for the first user whose *username*
(`Name`) equals the token; an unmatched token is a "user not found"
error. -/
def resolveUser (c : DMClient) (userArg : String) : Except String String :=
  if startsWithU userArg then Except.ok userArg
  else
    let firstTry : Option User :=
      if containsAt userArg then (c.getUserByEmail userArg).toOption else none
    match firstTry with
    | some u => Except.ok u.id
    | none =>
      match c.getUserByEmail userArg with
      | .ok u => Except.ok u.id
      | .error _ =>
        match c.getUsers with
        | .error e => Except.error ("failed to get users: " ++ e)
        | .ok users =>
          match users.find? (fun u => u.name == userArg) with
          | some u => Except.ok u.id
          | none => Except.error ("user not found: " ++ userArg)

/-- `UserService.Lookup` (`users.go`): `"auto"` resolves to `"email"` when
the query contains `"@"` and to `"name"` otherwise; the email path does not
fall back to the directory, and the name path matches username or real
(display) name. -/
def lookup (c : DMClient) (query byField : String) : Except String User :=
  let field := if byField = "auto" then (if containsAt query then "email" else "name") else byField
  if field = "email" then
    match c.getUserByEmail query with
    | .error e => Except.error ("user not found by email: " ++ e)
    | .ok u => Except.ok u
  else
    match c.getUsers with
    | .error e => Except.error ("failed to get users: " ++ e)
    | .ok users =>
      match users.find? (fun u => u.name == query || u.realName == query) with
      | some u => Except.ok u
      | none => Except.error ("user not found: " ++ query)

/-- `UserService.ResolveUser` (`users.go`): ID-shaped tokens are returned
unchanged, everything else goes through `Lookup` with `"auto"`. -/
def userResolveUser (c : DMClient) (user : String) : Except String String :=
  if startsWithU user then Except.ok user
  else
    match lookup c user "auto" with
    | .error e => Except.error e
    | .ok info => Except.ok info.id

/-- The client refuting C4: every email lookup fails, and the directory
contains a user whose display name is "Alice Display" (username "alice")
and a user whose username is "bob@x". -/
def clientC4 : DMClient where
  getUserByEmail := fun _ => Except.error "users_not_found"
  getUsers := Except.ok [{ id := "U77", name := "alice", realName := "Alice Display" },
                         { id := "U88", name := "bob@x", realName := "Bob" }]

/-- **C4, counterexample.**  The token `"Alice Display"` is not ID-shaped,
its email lookup fails, and the fetched directory contains a user whose
*display name* is exactly `"Alice Display"` — yet `DMService.ResolveUser`
reports a hard not-found failure, because the directory scan matches the
username field only, not the display name.  (The display-name matching the
claim describes exists only in `UserService.Lookup`'s name path; for that
resolver the claimed order fails differently: an `"@"`-containing token
whose email lookup fails is a hard failure with no directory fallback, even
though a user with exactly that username, `"bob@x"`, is in the
directory.) -/
theorem resolveUser_resolution_order_cex :
    startsWithU "Alice Display" = false ∧
    clientC4.getUserByEmail "Alice Display" = Except.error "users_not_found" ∧
    clientC4.getUsers = Except.ok [{ id := "U77", name := "alice", realName := "Alice Display" },
                                   { id := "U88", name := "bob@x", realName := "Bob" }] ∧
    resolveUser clientC4 "Alice Display" = Except.error "user not found: Alice Display" ∧
    userResolveUser clientC4 "bob@x" = Except.error "user not found by email: users_not_found" :=
  ⟨by decide, by decide, by decide, by decide, by decide⟩

/-- **C4, amended.**  `DMService.ResolveUser` proceeds in exactly this
order: an ID-shaped token (prefix `"U"`) is returned unchanged with no
directory call (the result is independent of the client); otherwise an
email lookup is attempted, and its success wins; on its failure the full
user directory is fetched and the first exact match *on username only* is
returned; an unmatched token is a hard "user not found" failure (no fuzzy
matching), and a failing directory fetch propagates as an error. -/
theorem resolveUser_resolution_order (c : DMClient) (tok : String) :
    (startsWithU tok = true → ∀ c2 : DMClient, resolveUser c2 tok = Except.ok tok) ∧
    (startsWithU tok = false → ∀ u : User, c.getUserByEmail tok = Except.ok u →
      resolveUser c tok = Except.ok u.id) ∧
    (startsWithU tok = false → ∀ e : String, c.getUserByEmail tok = Except.error e →
      ∀ us : List User, c.getUsers = Except.ok us →
        resolveUser c tok
          = ((us.find? (fun u => u.name == tok)).elim
              (Except.error ("user not found: " ++ tok)) (fun u => Except.ok u.id))) ∧
    (startsWithU tok = false → ∀ e : String, c.getUserByEmail tok = Except.error e →
      ∀ e2 : String, c.getUsers = Except.error e2 →
        resolveUser c tok = Except.error ("failed to get users: " ++ e2)) := by
  refine ⟨?_, ?_, ?_, ?_⟩
  · intro h c2
    simp [resolveUser, h]
  · intro h u hu
    cases hat : containsAt tok <;>
      simp [resolveUser, h, hat, hu, Except.toOption]
  · intro h e he us hus
    cases hf : us.find? (fun u => u.name == tok) <;>
      cases hat : containsAt tok <;>
        simp [resolveUser, h, hat, he, hus, hf, Except.toOption]
  · intro h e he e2 he2
    cases hat : containsAt tok <;>
      simp [resolveUser, h, hat, he, he2, Except.toOption]

/-- Witness for the amended C4 theorem: an ID-shaped token is returned
unchanged, and a username-matched token resolves through the directory. -/
theorem resolveUser_resolution_order_witness :
    resolveUser clientC4 "U123" = Except.ok "U123" ∧
    resolveUser clientC4 "alice" = Except.ok "U77" := by
  constructor
  · exact (resolveUser_resolution_order clientC4 "U123").1 (by decide) clientC4
  · have h := (resolveUser_resolution_order clientC4 "alice").2.2.1 (by decide)
      "users_not_found" (by decide)
      [{ id := "U77", name := "alice", realName := "Alice Display" },
       { id := "U88", name := "bob@x", realName := "Bob" }] (by decide)
    rw [h]; decide

/-- The per-token loop of `DMService.ResolveUsers` (`dms.go`): trim each
token, skip empty ones, resolve the rest in order, and fail on the first
resolution error. -/
def resolveUsersLoop (c : DMClient) : List String → Except String (List String)
  | [] => Except.ok []
  | userArg :: rest =>
    let trimmed := trimString userArg
    if trimmed = "" then resolveUsersLoop c rest
    else
      match resolveUser c trimmed with
      | .error e => Except.error e
      | .ok uid =>
        match resolveUsersLoop c rest with
        | .error e => Except.error e
        | .ok ids => Except.ok (uid :: ids)

/-- `DMService.ResolveUsers` (`dms.go`): split on commas, run the token
loop, and reject an empty result list. -/
def resolveUsers (c : DMClient) (usersArg : String) : Except String (List String) :=
  match resolveUsersLoop c (splitComma usersArg) with
  | .error e => Except.error e
  | .ok userIDs =>
    if userIDs.isEmpty then Except.error "no valid users specified" else Except.ok userIDs

/-- The non-empty trimmed tokens of a comma-separated input. -/
def trimmedTokens (s : String) : List String :=
  ((splitComma s).map trimString).filter (fun t => !(t == ""))

theorem resolveUsersLoop_eq_mapM (c : DMClient) (args : List String) :
    resolveUsersLoop c args
      = ((args.map trimString).filter (fun t => !(t == ""))).mapM (resolveUser c) := by
  induction args with
  | nil => rw [List.map_nil, List.filter_nil, List.mapM_nil]; rfl
  | cons a rest ih =>
    simp only [resolveUsersLoop, List.map_cons, List.filter_cons]
    by_cases h : trimString a = ""
    · have hb : (trimString a == "") = true := by simpa using h
      rw [if_pos h, hb]
      simpa using ih
    · have hb : (trimString a == "") = false := by simpa using h
      rw [if_neg h, hb, Bool.not_false, if_pos rfl, List.mapM_cons, ← ih]
      cases hr : resolveUser c (trimString a) with
      | error e => rfl
      | ok uid =>
        cases hrest : resolveUsersLoop c rest with
        | error e => rfl
        | ok ids => rfl

theorem mapM_ok_length {f : String → Except String String} :
    ∀ {l : List String} {res : List String}, l.mapM f = Except.ok res → res.length = l.length := by
  intro l
  induction l with
  | nil =>
    intro res h
    rw [List.mapM_nil] at h
    cases h
    rfl
  | cons a rest ih =>
    intro res h
    rw [List.mapM_cons] at h
    cases hr : f a with
    | error e =>
      rw [hr] at h
      exact absurd h (by intro hh; exact Except.noConfusion hh)
    | ok uid =>
      rw [hr] at h
      cases hrest : rest.mapM f with
      | error e =>
        rw [hrest] at h
        exact absurd h (by intro hh; exact Except.noConfusion hh)
      | ok ids =>
        rw [hrest] at h
        cases h
        rw [List.length_cons, List.length_cons, ih hrest]

/-- **C9, amended.** `ResolveUsers` splits its input on commas, trims each
token, skips empty tokens, and resolves the remaining tokens independently
in order (`mapM`), failing on the first token whose resolution fails with
no partial result; when no non-empty token remains (e.g. an empty input) it
fails with "no valid users specified" even though no token failed.
Consequently inputs with the same trimmed token list — in particular inputs
differing only in surrounding whitespace — resolve identically. -/
theorem resolveUsers_characterization (c : DMClient) (s : String) :
    (resolveUsers c s
      = if trimmedTokens s = [] then Except.error "no valid users specified"
        else (trimmedTokens s).mapM (resolveUser c)) ∧
    (∀ t : String, trimmedTokens s = trimmedTokens t →
      resolveUsers c s = resolveUsers c t) := by
  have main : ∀ u : String, resolveUsers c u
      = if trimmedTokens u = [] then Except.error "no valid users specified"
        else (trimmedTokens u).mapM (resolveUser c) := by
    intro u
    unfold resolveUsers
    rw [resolveUsersLoop_eq_mapM]
    show (match (trimmedTokens u).mapM (resolveUser c) with
      | .error e => Except.error e
      | .ok userIDs =>
        if userIDs.isEmpty then Except.error "no valid users specified" else Except.ok userIDs) = _
    by_cases hemp : trimmedTokens u = []
    · rw [hemp, if_pos rfl, List.mapM_nil]
      rfl
    · rw [if_neg hemp]
      cases hm : (trimmedTokens u).mapM (resolveUser c) with
      | error e => rfl
      | ok ids =>
        have hlen := mapM_ok_length hm
        have : ids.isEmpty = false := by
          cases ids with
          | nil =>
            rw [List.length_nil] at hlen
            exact absurd (List.length_eq_zero.mp hlen.symm) hemp
          | cons x xs => rfl
        simp [this]
  exact ⟨main s, fun t ht => by rw [main s, main t, ht]⟩

/-- **C9, counterexample.** On the empty input no token exists, so no
token's resolution fails, yet `ResolveUsers` returns an error ("no valid
users specified"): the claimed "error if and only if some token fails"
equivalence does not hold. -/
theorem resolveUsers_error_iff_cex :
    trimmedTokens "" = [] ∧
    resolveUsers { getUserByEmail := fun _ => Except.error "e", getUsers := Except.ok [] } ""
      = Except.error "no valid users specified" :=
  ⟨by decide, by decide⟩

/-- The client used by the C9 witness: email lookups fail and the directory
contains users `alice` and `bob`. -/
def clientC9 : DMClient where
  getUserByEmail := fun _ => Except.error "users_not_found"
  getUsers := Except.ok [{ id := "UA", name := "alice" }, { id := "UB", name := "bob" }]

/-- Witness for the amended C9 theorem: inputs differing only in
whitespace resolve identically (and successfully). -/
theorem resolveUsers_characterization_witness :
    resolveUsers clientC9 "alice,bob" = resolveUsers clientC9 " alice , bob " ∧
    resolveUsers clientC9 "alice,bob" = Except.ok ["UA", "UB"] :=
  ⟨(resolveUsers_characterization clientC9 "alice,bob").2 " alice , bob " (by decide),
   by decide⟩

/-! ## Engagement tracker (`reactions.go`, `CheckAcknowledgment`) -/

/-- One reaction on a message (`slack.ItemReaction`): emoji name and the
users who reacted with it. -/
structure Reaction where
  name : String := ""
  users : List String := []
  deriving DecidableEq, Repr

/-- A message (`slack.Message`): the fields read by
`CheckAcknowledgment`. -/
structure Message where
  user : String := ""
  reactions : List Reaction := []
  replyCount : Nat := 0
  deriving DecidableEq, Repr

/-- `AcknowledgmentInfo` (`reactions.go`). -/
structure AcknowledgmentInfo where
  isAcknowledged : Bool
  reactedUsers : List String
  reactionCount : Nat
  replyCount : Nat
  hasReplies : Bool
  hasReactions : Bool
  messageAuthor : String
  deriving DecidableEq, Repr

/-- The reaction loop of `CheckAcknowledgment`: starting from
`(reactedUsers, reactionCount) = ([], 0)`, append every reacting user of
every reaction who differs from the author and count them. -/
def nonAuthorReactions (author : String) (reactions : List Reaction) : List String × Nat :=
  reactions.foldl
    (fun acc r =>
      r.users.foldl
        (fun acc2 u => if u ≠ author then (acc2.1 ++ [u], acc2.2 + 1) else acc2)
        acc)
    ([], 0)

/-- The reply loop of `CheckAcknowledgment`: skip the first returned
message (the thread parent) and count replies whose author differs from the
message author. -/
def countNonAuthorReplies (author : String) (replies : List Message) : Nat :=
  (replies.drop 1).countP (fun r => r.user != author)

/-- `CheckAcknowledgment` (`reactions.go`): fetch the target message (the
history response, whose first message is the target); fail when the fetch
fails or returns no message; compute non-author reactors from the inline
reaction list; when the message's reply count is positive fetch the thread
replies (the `replies` response) and count non-author replies, otherwise
leave the reply count at zero without consulting `replies`; acknowledged
means a positive non-author reaction count or a positive non-author reply
count. -/
def checkAcknowledgment (history replies : Except String (List Message)) :
    Except String AcknowledgmentInfo :=
  match history with
  | .error e => .error ("failed to get message: " ++ e)
  | .ok messages =>
    match messages with
    | [] => .error "message not found"
    | msg :: _ =>
      let author := msg.user
      let reacted := nonAuthorReactions author msg.reactions
      let replyCountE : Except String Nat :=
        if msg.replyCount > 0 then
          match replies with
          | .error e => .error ("failed to get replies: " ++ e)
          | .ok rs => .ok (countNonAuthorReplies author rs)
        else .ok 0
      match replyCountE with
      | .error e => .error e
      | .ok replyCount =>
        .ok { isAcknowledged := decide (reacted.2 > 0) || decide (replyCount > 0)
              reactedUsers := reacted.1
              reactionCount := reacted.2
              replyCount := replyCount
              hasReplies := decide (msg.replyCount > 0)
              hasReactions := decide (msg.reactions.length > 0)
              messageAuthor := author }

theorem nonAuthorReactions_inner (author : String) :
    ∀ (us : List String) (acc : List String × Nat),
      us.foldl (fun acc2 u => if u ≠ author then (acc2.1 ++ [u], acc2.2 + 1) else acc2) acc
        = (acc.1 ++ us.filter (fun u => u != author),
           acc.2 + (us.filter (fun u => u != author)).length)
  | [], acc => by simp
  | u :: us, acc => by
    rw [List.foldl_cons, List.filter_cons]
    by_cases h : u = author
    · have hb : (u != author) = false := by simpa using h
      rw [if_neg (by simpa using h), hb]
      simpa using nonAuthorReactions_inner author us acc
    · have hb : (u != author) = true := by simpa using h
      rw [if_pos (by simpa using h), hb]
      rw [nonAuthorReactions_inner author us (acc.1 ++ [u], acc.2 + 1)]
      simp only [if_true, List.append_assoc, List.singleton_append, List.length_cons]
      rw [Prod.mk.injEq]
      exact ⟨rfl, by omega⟩

/-- The reaction loop computes, in order, the concatenation of each
reaction's non-author reactor list, together with its length. -/
theorem nonAuthorReactions_spec (author : String) (reactions : List Reaction) :
    nonAuthorReactions author reactions
      = ((reactions.map (fun r => r.users.filter (fun u => u != author))).flatten,
         ((reactions.map (fun r => r.users.filter (fun u => u != author))).flatten).length) := by
  unfold nonAuthorReactions
  suffices hgen : ∀ (rs : List Reaction) (acc : List String × Nat),
      rs.foldl (fun acc r =>
        r.users.foldl (fun acc2 u => if u ≠ author then (acc2.1 ++ [u], acc2.2 + 1) else acc2) acc) acc
        = (acc.1 ++ (rs.map (fun r => r.users.filter (fun u => u != author))).flatten,
           acc.2 + ((rs.map (fun r => r.users.filter (fun u => u != author))).flatten).length) by
    rw [hgen reactions ([], 0)]
    simp
  intro rs
  induction rs with
  | nil => intro acc; simp
  | cons r rest ih =>
    intro acc
    rw [List.foldl_cons, nonAuthorReactions_inner, ih]
    simp only [List.map_cons, List.flatten_cons, List.append_assoc, List.length_append]
    rw [Prod.mk.injEq]
    exact ⟨rfl, by omega⟩

/-- **C6, amended.** In a successful `CheckAcknowledgment` result the
reacted-users collection lists one entry per (reaction, non-author reactor)
pair, in reaction order — a user who reacted with several distinct emoji
appears once per reaction, so it is generally a multiset, not a set — and
the reaction count equals the length of that collection.  (When every user
reacted at most once overall the collection is duplicate-free and the count
is the number of distinct non-author reactors, as in the spec scenario:
author `U1` plus a single reaction by `U2` yields count 1 and `[U2]`.) -/
theorem checkAcknowledgment_reacted_characterization
    (history replies : Except String (List Message)) (msg : Message) (rest : List Message)
    (info : AcknowledgmentInfo)
    (hhist : history = Except.ok (msg :: rest))
    (hok : checkAcknowledgment history replies = Except.ok info) :
    info.reactedUsers
        = (msg.reactions.map (fun r => r.users.filter (fun u => u != msg.user))).flatten ∧
    info.reactionCount = info.reactedUsers.length := by
  subst hhist
  by_cases hrc : msg.replyCount > 0
  · cases hrp : replies with
    | error e => simp [checkAcknowledgment, hrp, hrc] at hok
    | ok rs =>
      simp only [checkAcknowledgment, if_pos hrc, hrp, Except.ok.injEq] at hok
      subst hok
      rw [nonAuthorReactions_spec]
      exact ⟨rfl, rfl⟩
  · simp only [checkAcknowledgment, if_neg hrc, Except.ok.injEq] at hok
    subst hok
    rw [nonAuthorReactions_spec]
    exact ⟨rfl, rfl⟩

/-- The message refuting C6: authored by `U1`, with user `U2` reacting with
two different emoji. -/
def msgC6 : Message :=
  { user := "U1"
    reactions := [{ name := "thumbsup", users := ["U2"] }, { name := "heart", users := ["U2"] }]
    replyCount := 0 }

/-- **C6, counterexample.** When the same non-author user reacts with two
different emoji, `CheckAcknowledgment` lists that user twice in
`reactedUsers` (not a set: `U2` appears twice, the list has a duplicate)
and reports `reactionCount = 2`, although the number of distinct non-author
reactors is 1. -/
theorem checkAcknowledgment_reacted_set_cex :
    checkAcknowledgment (Except.ok [msgC6]) (Except.ok [])
      = Except.ok { isAcknowledged := true, reactedUsers := ["U2", "U2"], reactionCount := 2,
                    replyCount := 0, hasReplies := false, hasReactions := true,
                    messageAuthor := "U1" } ∧
    ¬ (["U2", "U2"] : List String).Nodup ∧
    (["U2", "U2"] : List String).dedup.length = 1 :=
  ⟨by decide, by decide, by decide⟩

/-- The acknowledgment record `CheckAcknowledgment` produces for `msgC6`. -/
def infoC6 : AcknowledgmentInfo :=
  { isAcknowledged := true, reactedUsers := ["U2", "U2"], reactionCount := 2, replyCount := 0,
    hasReplies := false, hasReactions := true, messageAuthor := "U1" }

/-- Witness for the amended C6 theorem at a concrete input. -/
theorem checkAcknowledgment_reacted_characterization_witness :
    infoC6.reactedUsers
        = (msgC6.reactions.map (fun r => r.users.filter (fun u => u != msgC6.user))).flatten ∧
    infoC6.reactionCount = infoC6.reactedUsers.length :=
  checkAcknowledgment_reacted_characterization (Except.ok [msgC6]) (Except.ok [])
    msgC6 [] infoC6 rfl (by decide)

/-- **C2.** For a message whose reactions are all by its own author and
whose thread (when fetched at all) contains no non-author reply, a
successful `CheckAcknowledgment` reports `isAcknowledged = false` and a
non-author reaction count of 0: a self-reaction never counts as
acknowledgment. -/
theorem checkAcknowledgment_self_reaction_only
    (history replies : Except String (List Message)) (msg : Message) (rest : List Message)
    (info : AcknowledgmentInfo)
    (hhist : history = Except.ok (msg :: rest))
    (hreact : ∀ r ∈ msg.reactions, ∀ u ∈ r.users, u = msg.user)
    (hrep : ∀ rs : List Message, replies = Except.ok rs → ∀ m ∈ rs.drop 1, m.user = msg.user)
    (hok : checkAcknowledgment history replies = Except.ok info) :
    info.isAcknowledged = false ∧ info.reactionCount = 0 := by
  subst hhist
  have hflat : (msg.reactions.map (fun r => r.users.filter (fun u => u != msg.user))).flatten = [] := by
    rw [List.flatten_eq_nil_iff]
    intro l hl
    rw [List.mem_map] at hl
    obtain ⟨r, hr, rfl⟩ := hl
    rw [List.filter_eq_nil_iff]
    intro u hu
    simpa using hreact r hr u hu
  have hcnt : (nonAuthorReactions msg.user msg.reactions).2 = 0 := by
    rw [nonAuthorReactions_spec, hflat]
    rfl
  have husers : (nonAuthorReactions msg.user msg.reactions).1 = [] := by
    rw [nonAuthorReactions_spec, hflat]
  by_cases hrc : msg.replyCount > 0
  · cases hrp : replies with
    | error e => simp [checkAcknowledgment, hrp, hrc] at hok
    | ok rs =>
      have hreplies : countNonAuthorReplies msg.user rs = 0 := by
        rw [countNonAuthorReplies, List.countP_eq_zero]
        intro m hm
        simpa using hrep rs hrp m hm
      simp only [checkAcknowledgment, if_pos hrc, hrp, Except.ok.injEq] at hok
      subst hok
      simp [hcnt, hreplies]
  · simp only [checkAcknowledgment, if_neg hrc, Except.ok.injEq] at hok
    subst hok
    simp [hcnt]

/-- The message of the C2 witness: a self-reaction and one self-reply. -/
def msgC2 : Message :=
  { user := "U1", reactions := [{ name := "eyes", users := ["U1"] }], replyCount := 1 }

/-- The replies response of the C2 witness: the thread parent plus one
reply by the author. -/
def repliesC2 : List Message := [{ user := "U1" }, { user := "U1" }]

/-- The acknowledgment record produced in the C2 witness scenario. -/
def infoC2 : AcknowledgmentInfo :=
  { isAcknowledged := false, reactedUsers := [], reactionCount := 0, replyCount := 0,
    hasReplies := true, hasReactions := true, messageAuthor := "U1" }

/-- Witness for C2 at a concrete input. -/
theorem checkAcknowledgment_self_reaction_only_witness :
    checkAcknowledgment (Except.ok [msgC2]) (Except.ok repliesC2) = Except.ok infoC2 ∧
    infoC2.isAcknowledged = false ∧ infoC2.reactionCount = 0 := by
  have h := checkAcknowledgment_self_reaction_only (Except.ok [msgC2]) (Except.ok repliesC2)
    msgC2 [] infoC2 rfl (by decide)
    (fun rs hrs => by
      injection hrs with h2
      subst h2
      decide)
    (by decide)
  exact ⟨by decide, h.1, h.2⟩

/-- **C7.** When the fetched message's reply count is zero,
`CheckAcknowledgment` never performs the thread-replies fetch: its result
is independent of the replies response (even an erroring one), and the
reply-derived count in a successful result is zero. -/
theorem checkAcknowledgment_no_reply_fetch
    (history : Except String (List Message)) (msg : Message) (rest : List Message)
    (hhist : history = Except.ok (msg :: rest)) (h0 : msg.replyCount = 0) :
    (∀ replies replies2 : Except String (List Message),
        checkAcknowledgment history replies = checkAcknowledgment history replies2) ∧
    (∀ (replies : Except String (List Message)) (info : AcknowledgmentInfo),
        checkAcknowledgment history replies = Except.ok info → info.replyCount = 0) := by
  subst hhist
  have hrc : ¬ msg.replyCount > 0 := by omega
  constructor
  · intro replies replies2
    simp [checkAcknowledgment, if_neg hrc]
  · intro replies info hok
    simp only [checkAcknowledgment, if_neg hrc, Except.ok.injEq] at hok
    subst hok
    rfl

/-- Witness for C7 at a concrete input: with a zero reply count even an
erroring replies response yields the same result as a populated one. -/
theorem checkAcknowledgment_no_reply_fetch_witness :
    checkAcknowledgment (Except.ok [{ user := "U1" }]) (Except.error "boom")
      = checkAcknowledgment (Except.ok [{ user := "U1" }])
          (Except.ok [{ user := "U2" }, { user := "U2" }]) :=
  (checkAcknowledgment_no_reply_fetch _ { user := "U1" } [] rfl rfl).1 _ _

/-! ## Unread aggregator (`unread.go`, `ListUnread`) -/

/-- `UnreadOptions` (`unread.go`). -/
structure UnreadOptions where
  channelsOnly : Bool := false
  dmsOnly : Bool := false
  minUnreadCount : Nat := 0
  orderBy : String := ""
  limit : Nat := 0
  deriving DecidableEq, Repr

/-- `UnreadInfo` (`unread.go`).  `userIDs` is declared in the source but
never assigned by `ListUnread`. -/
structure UnreadInfo where
  id : String := ""
  name : String := ""
  type : String := ""
  isChannel : Bool := false
  isPrivate : Bool := false
  isIM : Bool := false
  isMpIM : Bool := false
  unreadCount : Nat := 0
  unreadCountDisplay : Nat := 0
  lastRead : String := ""
  userID : String := ""
  userName : String := ""
  userIDs : List String := []
  deriving DecidableEq, Repr, Inhabited

/-- The client calls made by `ListUnread`: `GetConversations` (the one
initial list call), `GetConversationInfo` per conversation (`none` models a
failed call, which the source skips), and `GetUserInfo` per DM counterpart
(`none` models a failed lookup, which leaves the name empty). -/
structure UnreadClient where
  conversations : Except String (List Channel)
  info : String → Option Channel
  userInfo : String → Option User

/-- The `UnreadInfo` literal built from a conversation's detail record in
the loop body of `ListUnread`. -/
def mkUnreadInfo (ci : Channel) : UnreadInfo :=
  { id := ci.id
    name := ci.name
    type := if ci.isIM then "im" else if ci.isMpIM then "mpim" else "channel"
    isChannel := ci.isChannel
    isPrivate := ci.isPrivate
    isIM := ci.isIM
    isMpIM := ci.isMpIM
    unreadCount := ci.unreadCount
    unreadCountDisplay := ci.unreadCountDisplay
    lastRead := ci.lastRead
    userID := if ci.isIM ∧ ci.user ≠ "" then ci.user else "" }

/-- The per-conversation loop of `ListUnread`: fetch the detail record
(skipping the conversation when the fetch fails), skip conversations with
no unread messages (both counters zero), apply the minimum-unread threshold
to the counter with display fallback, apply the kind filters, and collect
an `UnreadInfo` for the survivors. -/
def collectUnread (info : String → Option Channel) (opts : UnreadOptions) :
    List Channel → List UnreadInfo
  | [] => []
  | conv :: rest =>
    match info conv.id with
    | none => collectUnread info opts rest
    | some ci =>
      if ci.unreadCount = 0 ∧ ci.unreadCountDisplay = 0 then collectUnread info opts rest
      else
        let unreadCount := if ci.unreadCount = 0 then ci.unreadCountDisplay else ci.unreadCount
        if opts.minUnreadCount > 0 ∧ unreadCount < opts.minUnreadCount then
          collectUnread info opts rest
        else if opts.channelsOnly = true ∧ ci.isChannel = false then collectUnread info opts rest
        else if opts.dmsOnly = true ∧ (ci.isIM || ci.isMpIM) = false then collectUnread info opts rest
        else mkUnreadInfo ci :: collectUnread info opts rest

/-- The `isDM` classifier of `ListUnread`'s sort. -/
def dmFlag (i : UnreadInfo) : Bool := i.isIM || i.isMpIM

/-- The non-strict order corresponding to `ListUnread`'s strict comparator:
DMs sort ahead of channels, and within a kind class the secondary key `k`
decides. -/
def dmLex (k : UnreadInfo → UnreadInfo → Prop) (a b : UnreadInfo) : Prop :=
  if dmFlag a = dmFlag b then k a b else dmFlag a = true

/-- The non-strict version of the `"oldest"` comparator of `ListUnread`:
last-read marker ascending within a kind class. -/
def leOldest : UnreadInfo → UnreadInfo → Prop :=
  dmLex (fun a b => strLe a.lastRead b.lastRead)

/-- The non-strict version of the default (`"count"`) comparator of
`ListUnread`: unread count descending within a kind class. -/
def leCount : UnreadInfo → UnreadInfo → Prop :=
  dmLex (fun a b => b.unreadCount ≤ a.unreadCount)

instance : DecidableRel leOldest := fun a b => by
  unfold leOldest dmLex
  infer_instance

instance : DecidableRel leCount := fun a b => by
  unfold leCount dmLex
  infer_instance

theorem dmLex_total (k : UnreadInfo → UnreadInfo → Prop) (hk : ∀ a b, k a b ∨ k b a) :
    ∀ a b, dmLex k a b ∨ dmLex k b a := by
  intro a b
  unfold dmLex
  by_cases h : dmFlag a = dmFlag b
  · rw [if_pos h, if_pos h.symm]
    exact hk a b
  · rw [if_neg h, if_neg (fun hh => h hh.symm)]
    cases ha : dmFlag a
    · right
      cases hb : dmFlag b
      · exact absurd (ha.trans hb.symm) h
      · rfl
    · left; rfl

theorem dmLex_trans (k : UnreadInfo → UnreadInfo → Prop)
    (hk : ∀ a b c, k a b → k b c → k a c) :
    ∀ a b c, dmLex k a b → dmLex k b c → dmLex k a c := by
  intro a b c hab hbc
  unfold dmLex at *
  by_cases h1 : dmFlag a = dmFlag b
  · rw [if_pos h1] at hab
    by_cases h2 : dmFlag b = dmFlag c
    · rw [if_pos h2] at hbc
      rw [if_pos (h1.trans h2)]
      exact hk a b c hab hbc
    · rw [if_neg h2] at hbc
      rw [if_neg (fun hh => h2 (h1.symm.trans hh))]
      exact h1.trans hbc
  · rw [if_neg h1] at hab
    by_cases h2 : dmFlag b = dmFlag c
    · rw [if_neg (fun hh => h1 (hh.trans h2.symm))]
      exact hab
    · rw [if_neg h2] at hbc
      exact absurd hbc.symm (hab ▸ h1)

theorem dmLex_dm_first (k : UnreadInfo → UnreadInfo → Prop) {a b : UnreadInfo}
    (h : dmLex k a b) (hb : dmFlag b = true) : dmFlag a = true := by
  unfold dmLex at h
  by_cases hf : dmFlag a = dmFlag b
  · exact hf.trans hb
  · rwa [if_neg hf] at h

instance : IsTotal UnreadInfo leOldest :=
  ⟨dmLex_total (fun a b => strLe a.lastRead b.lastRead)
    (fun a b => total_of strLe a.lastRead b.lastRead)⟩

instance : IsTrans UnreadInfo leOldest :=
  ⟨fun a b c => dmLex_trans (fun a b => strLe a.lastRead b.lastRead)
    (fun x y z hxy hyz => IsTrans.trans x.lastRead y.lastRead z.lastRead hxy hyz) a b c⟩

instance : IsTotal UnreadInfo leCount :=
  ⟨dmLex_total (fun a b => b.unreadCount ≤ a.unreadCount)
    (fun a b => (Nat.le_total b.unreadCount a.unreadCount).elim Or.inl Or.inr)⟩

instance : IsTrans UnreadInfo leCount :=
  ⟨fun a b c => dmLex_trans (fun a b => b.unreadCount ≤ a.unreadCount)
    (fun _ _ _ hxy hyz => Nat.le_trans hyz hxy) a b c⟩

/-- The sort of `ListUnread`: DMs ahead of channels, then by last-read
ascending (`"oldest"`) or unread count descending (anything else, i.e. the
default `"count"`). -/
def sortResults (opts : UnreadOptions) (results : List UnreadInfo) : List UnreadInfo :=
  if opts.orderBy = "oldest" then results.insertionSort leOldest
  else results.insertionSort leCount

/-- The truncation step of `ListUnread`: applied only when a positive limit
is exceeded. -/
def applyLimit (limit : Nat) (results : List UnreadInfo) : List UnreadInfo :=
  if limit > 0 ∧ results.length > limit then results.take limit else results

/-- The name-resolution pass of `ListUnread` (via `ResolveUserNames`),
applied per surviving entry: a DM entry's counterpart name is filled in
when its `GetUserInfo` lookup succeeds and left empty otherwise. -/
def fillUserName (userInfo : String → Option User) (r : UnreadInfo) : UnreadInfo :=
  if r.userID ≠ "" then
    match userInfo r.userID with
    | some u => { r with userName := u.name }
    | none => r
  else r

/-- `ListUnread` (`unread.go`): list the conversations (aborting on
failure), collect the filtered unread entries, sort, truncate, and fill in
DM counterpart names for the surviving entries only. -/
def listUnread (c : UnreadClient) (opts : UnreadOptions) : Except String (List UnreadInfo) :=
  match c.conversations with
  | .error e => .error e
  | .ok conversations =>
    let results := collectUnread c.info opts conversations
    let sorted := sortResults opts results
    let limited := applyLimit opts.limit sorted
    .ok (limited.map (fillUserName c.userInfo))

theorem listUnread_ok (c : UnreadClient) (opts : UnreadOptions) (convs : List Channel)
    (h : c.conversations = .ok convs) :
    listUnread c opts
      = .ok ((applyLimit opts.limit
          (sortResults opts (collectUnread c.info opts convs))).map (fillUserName c.userInfo)) := by
  unfold listUnread
  rw [h]

theorem listUnread_ok_elim (c : UnreadClient) (opts : UnreadOptions) (l : List UnreadInfo)
    (h : listUnread c opts = .ok l) :
    ∃ convs, c.conversations = .ok convs ∧
      l = (applyLimit opts.limit
            (sortResults opts (collectUnread c.info opts convs))).map (fillUserName c.userInfo) := by
  cases hc : c.conversations with
  | error e => simp [listUnread, hc] at h
  | ok convs =>
    refine ⟨convs, rfl, ?_⟩
    have h2 := listUnread_ok c opts convs hc
    rw [h2] at h
    injection h with h3
    exact h3.symm

theorem fillUserName_fields (ui : String → Option User) (r : UnreadInfo) :
    (fillUserName ui r).isIM = r.isIM ∧ (fillUserName ui r).isMpIM = r.isMpIM ∧
    (fillUserName ui r).lastRead = r.lastRead ∧
    (fillUserName ui r).unreadCount = r.unreadCount ∧
    (fillUserName ui r).unreadCountDisplay = r.unreadCountDisplay := by
  unfold fillUserName
  by_cases h : r.userID ≠ ""
  · rw [if_pos h]
    cases ui r.userID
    · exact ⟨rfl, rfl, rfl, rfl, rfl⟩
    · exact ⟨rfl, rfl, rfl, rfl, rfl⟩
  · rw [if_neg h]
    exact ⟨rfl, rfl, rfl, rfl, rfl⟩

theorem fillUserName_dmFlag (ui : String → Option User) (r : UnreadInfo) :
    dmFlag (fillUserName ui r) = dmFlag r := by
  obtain ⟨h1, h2, -, -, -⟩ := fillUserName_fields ui r
  unfold dmFlag
  rw [h1, h2]

theorem leOldest_fill (ui : String → Option User) (a b : UnreadInfo) :
    leOldest (fillUserName ui a) (fillUserName ui b) ↔ leOldest a b := by
  obtain ⟨-, -, h3, -, -⟩ := fillUserName_fields ui a
  obtain ⟨-, -, h3', -, -⟩ := fillUserName_fields ui b
  unfold leOldest dmLex
  simp only [fillUserName_dmFlag, h3, h3']

theorem leCount_fill (ui : String → Option User) (a b : UnreadInfo) :
    leCount (fillUserName ui a) (fillUserName ui b) ↔ leCount a b := by
  obtain ⟨-, -, -, h4, -⟩ := fillUserName_fields ui a
  obtain ⟨-, -, -, h4', -⟩ := fillUserName_fields ui b
  unfold leCount dmLex
  simp only [fillUserName_dmFlag, h4, h4']

theorem applyLimit_sublist (n : Nat) (l : List UnreadInfo) : (applyLimit n l).Sublist l := by
  unfold applyLimit
  split
  · exact List.take_sublist n l
  · exact List.Sublist.refl l

theorem sortResults_perm (opts : UnreadOptions) (results : List UnreadInfo) :
    (sortResults opts results).Perm results := by
  unfold sortResults
  split
  · exact List.perm_insertionSort leOldest results
  · exact List.perm_insertionSort leCount results

/-- **C3.** Output ordering of `ListUnread`, for every client and option
combination: with `orderBy = "oldest"` the output is sorted by `leOldest`
(DMs ahead of channels, last-read ascending within a kind class); with any
other `orderBy` — in particular the default `"count"` — it is sorted by
`leCount` (DMs ahead of channels, unread count descending within a kind
class); and in every case each direct or group-direct entry precedes every
channel entry regardless of unread counts. -/
theorem listUnread_ordering (c : UnreadClient) (opts : UnreadOptions) (l : List UnreadInfo)
    (h : listUnread c opts = .ok l) :
    (opts.orderBy = "oldest" → l.Pairwise leOldest) ∧
    (opts.orderBy ≠ "oldest" → l.Pairwise leCount) ∧
    l.Pairwise (fun a b => dmFlag b = true → dmFlag a = true) := by
  obtain ⟨convs, -, rfl⟩ := listUnread_ok_elim c opts l h
  have hold : opts.orderBy = "oldest" →
      ((applyLimit opts.limit
        (sortResults opts (collectUnread c.info opts convs))).map (fillUserName c.userInfo)).Pairwise leOldest := by
    intro horder
    have hs : (sortResults opts (collectUnread c.info opts convs)).Pairwise leOldest := by
      rw [sortResults, if_pos horder]
      exact List.sorted_insertionSort leOldest _
    have hlim := List.Pairwise.sublist (applyLimit_sublist opts.limit _) hs
    exact List.pairwise_map.mpr (hlim.imp (fun hab => (leOldest_fill _ _ _).mpr hab))
  have hcnt : opts.orderBy ≠ "oldest" →
      ((applyLimit opts.limit
        (sortResults opts (collectUnread c.info opts convs))).map (fillUserName c.userInfo)).Pairwise leCount := by
    intro horder
    have hs : (sortResults opts (collectUnread c.info opts convs)).Pairwise leCount := by
      rw [sortResults, if_neg horder]
      exact List.sorted_insertionSort leCount _
    have hlim := List.Pairwise.sublist (applyLimit_sublist opts.limit _) hs
    exact List.pairwise_map.mpr (hlim.imp (fun hab => (leCount_fill _ _ _).mpr hab))
  refine ⟨hold, hcnt, ?_⟩
  by_cases horder : opts.orderBy = "oldest"
  · exact (hold horder).imp (fun hab => dmLex_dm_first _ hab)
  · exact (hcnt horder).imp (fun hab => dmLex_dm_first _ hab)

theorem collectUnread_mem_no_zero (info : String → Option Channel) (opts : UnreadOptions) :
    ∀ (convs : List Channel) (e : UnreadInfo), e ∈ collectUnread info opts convs →
      ¬(e.unreadCount = 0 ∧ e.unreadCountDisplay = 0) := by
  intro convs
  induction convs with
  | nil => intro e he; simp [collectUnread] at he
  | cons conv rest ih =>
    intro e he
    cases hi : info conv.id with
    | none =>
      simp only [collectUnread, hi] at he
      exact ih e he
    | some ci =>
      simp only [collectUnread, hi] at he
      by_cases h0 : ci.unreadCount = 0 ∧ ci.unreadCountDisplay = 0
      · rw [if_pos h0] at he; exact ih e he
      · rw [if_neg h0] at he
        by_cases h1 : opts.minUnreadCount > 0 ∧
            (if ci.unreadCount = 0 then ci.unreadCountDisplay else ci.unreadCount) < opts.minUnreadCount
        · rw [if_pos h1] at he; exact ih e he
        · rw [if_neg h1] at he
          by_cases h2 : opts.channelsOnly = true ∧ ci.isChannel = false
          · rw [if_pos h2] at he; exact ih e he
          · rw [if_neg h2] at he
            by_cases h3 : opts.dmsOnly = true ∧ (ci.isIM || ci.isMpIM) = false
            · rw [if_pos h3] at he; exact ih e he
            · rw [if_neg h3] at he
              rcases List.mem_cons.mp he with rfl | hmem
              · simpa [mkUnreadInfo] using h0
              · exact ih e hmem

/-- **C8.** A conversation with no unread messages (unread count zero, in
both its representations) never appears in the output of `ListUnread`, for
every client and every combination of the `channelsOnly` / `dmsOnly` /
`minUnreadCount` / `orderBy` / `limit` options: every emitted entry has a
nonzero unread counter. -/
theorem listUnread_zero_unread_excluded (c : UnreadClient) (opts : UnreadOptions)
    (l : List UnreadInfo) (e : UnreadInfo)
    (h : listUnread c opts = .ok l) (he : e ∈ l) :
    ¬(e.unreadCount = 0 ∧ e.unreadCountDisplay = 0) := by
  obtain ⟨convs, -, rfl⟩ := listUnread_ok_elim c opts l h
  obtain ⟨e0, he0, rfl⟩ := List.mem_map.mp he
  have he1 : e0 ∈ sortResults opts (collectUnread c.info opts convs) :=
    (applyLimit_sublist opts.limit _).subset he0
  have he2 : e0 ∈ collectUnread c.info opts convs :=
    (sortResults_perm opts _).mem_iff.mp he1
  have h0 := collectUnread_mem_no_zero c.info opts convs e0 he2
  obtain ⟨-, -, -, h4, h5⟩ := fillUserName_fields c.userInfo e0
  rw [h4, h5]
  exact h0

theorem collectUnread_filter_isSome (info : String → Option Channel) (opts : UnreadOptions) :
    ∀ convs : List Channel,
      collectUnread info opts (convs.filter (fun cv => (info cv.id).isSome))
        = collectUnread info opts convs := by
  intro convs
  induction convs with
  | nil => rfl
  | cons conv rest ih =>
    rw [List.filter_cons]
    cases hi : info conv.id with
    | none =>
      simp only [Option.isSome_none, Bool.false_eq_true, if_false]
      simp only [collectUnread, hi]
      exact ih
    | some ci =>
      simp only [Option.isSome_some, if_true]
      simp only [collectUnread, hi]
      rw [ih]

/-- **C10.** In `ListUnread`, only a failure of the initial
conversations-list call aborts the operation (propagating that error); when
the list call succeeds the operation always returns a result, and a failed
per-conversation detail fetch (`GetConversationInfo`) merely omits that
conversation: the output equals the output obtained after deleting from the
conversation list every conversation whose detail fetch fails. -/
theorem listUnread_detail_failure (c : UnreadClient) (opts : UnreadOptions) :
    (∀ e : String, c.conversations = .error e → listUnread c opts = .error e) ∧
    (∀ convs : List Channel, c.conversations = .ok convs →
      (∃ l, listUnread c opts = .ok l) ∧
      listUnread c opts
        = listUnread
            { c with conversations := .ok (convs.filter (fun cv => (c.info cv.id).isSome)) }
            opts) := by
  constructor
  · intro e he
    unfold listUnread
    rw [he]
  · intro convs hc
    have h1 := listUnread_ok c opts convs hc
    have h2 := listUnread_ok
      { c with conversations := .ok (convs.filter (fun cv => (c.info cv.id).isSome)) } opts
      (convs.filter (fun cv => (c.info cv.id).isSome)) rfl
    refine ⟨⟨_, h1⟩, ?_⟩
    rw [h1, h2]
    rw [collectUnread_filter_isSome]

/-- The channel of the C3 witness. -/
def chanC1 : Channel := { id := "C1", isChannel := true, unreadCount := 50, lastRead := "100" }

/-- The DM of the C3 witness. -/
def dmD1 : Channel := { id := "D1", isIM := true, user := "U5", unreadCount := 2, lastRead := "200" }

/-- The client of the C3 witness: one channel with 50 unread and one DM
with 2 unread. -/
def clientC3 : UnreadClient :=
  { conversations := Except.ok [chanC1, dmD1]
    info := fun i => if i = "C1" then some chanC1 else if i = "D1" then some dmD1 else none
    userInfo := fun i => if i = "U5" then some { id := "U5", name := "eve" } else none }

/-- The output of `ListUnread` in the C3 witness scenario: the DM with 2
unread precedes the channel with 50 unread. -/
def outC3 : List UnreadInfo :=
  [{ id := "D1", type := "im", isIM := true, unreadCount := 2, lastRead := "200",
     userID := "U5", userName := "eve" },
   { id := "C1", type := "channel", isChannel := true, unreadCount := 50, lastRead := "100" }]

/-- Witness for C3 at a concrete input (default options, hence the
`"count"` ordering). -/
theorem listUnread_ordering_witness :
    listUnread clientC3 {} = .ok outC3 ∧ outC3.Pairwise leCount :=
  ⟨by decide, (listUnread_ordering clientC3 {} outC3 (by decide)).2.1 (by decide)⟩

/-- The zero-unread channel of the C8 witness. -/
def zeroChan : Channel := { id := "Z1", isChannel := true, lastRead := "50" }

/-- The unread channel of the C8 witness. -/
def posChan : Channel := { id := "P1", isChannel := true, unreadCount := 7, lastRead := "60" }

/-- The client of the C8 witness: one conversation with zero unread (in
both counters) and one with 7 unread. -/
def clientC8 : UnreadClient :=
  { conversations := Except.ok [zeroChan, posChan]
    info := fun i => if i = "Z1" then some zeroChan else if i = "P1" then some posChan else none
    userInfo := fun _ => none }

/-- The single entry `ListUnread` emits in the C8 witness scenario. -/
def outC8 : List UnreadInfo :=
  [{ id := "P1", type := "channel", isChannel := true, unreadCount := 7, lastRead := "60" }]

/-- Witness for C8 at a concrete input: the zero-unread conversation is
dropped, and the emitted entry has nonzero unread counters. -/
theorem listUnread_zero_unread_excluded_witness :
    listUnread clientC8 {} = .ok outC8 ∧
    ¬((outC8.headI).unreadCount = 0 ∧ (outC8.headI).unreadCountDisplay = 0) :=
  ⟨by decide,
   listUnread_zero_unread_excluded clientC8 {} outC8 outC8.headI (by decide) (by decide)⟩

/-- The conversation of the C10 witness whose detail fetch succeeds. -/
def convA : Channel := { id := "A", isChannel := true, unreadCount := 3 }

/-- The conversation of the C10 witness whose detail fetch fails. -/
def convB : Channel := { id := "B", isChannel := true, unreadCount := 9 }

/-- The client of the C10 witness: the list call returns `A` and `B`, but
the per-conversation detail fetch fails for `B`. -/
def clientC10 : UnreadClient :=
  { conversations := Except.ok [convA, convB]
    info := fun i => if i = "A" then some convA else none
    userInfo := fun _ => none }

/-- Witness for C10 at a concrete input: the detail-fetch failure for `B`
does not abort the call — the output is the same as if `B` had not been
listed, and `A`'s entry is still produced. -/
theorem listUnread_detail_failure_witness :
    listUnread clientC10 {}
      = listUnread
          { clientC10 with
            conversations := .ok ([convA, convB].filter (fun cv => (clientC10.info cv.id).isSome)) }
          {} ∧
    listUnread clientC10 {}
      = .ok [{ id := "A", type := "channel", isChannel := true, unreadCount := 3 }] :=
  ⟨((listUnread_detail_failure clientC10 {}).2 [convA, convB] rfl).2, by decide⟩

end Slka
